import Mathlib

/-!
Verification of the CarryPigeon desktop client's native backend
(plugin store, TLS trust policies, TCP session framer, database registry).

The definitions below are a shallow embedding of the Rust sources:
  * `src-tauri/src/features/plugins/data/plugin_store.rs`
  * `src-tauri/src/features/network/data/tcp_real.rs`
  * `src-tauri/src/shared/db/mod.rs`

Conventions of the embedding:
  * Rust `&str`/`String` values are Lean `String`s; character-level string
    operations (`trim`, `split`, `contains`, ...) are modelled by explicit
    `List Char` functions so that their behaviour matches Rust's exactly.
  * Bytes (`u8`) are `Nat`s taken modulo 256 where it matters; `u16`/`u32`
    arithmetic carries explicit `% 2 ^ w` reductions.
  * Filesystem state is a path-indexed store (`FS`); serde JSON round-trips
    are modelled by storing structured values in files.
  * Network effects (HTTP downloads, `/api/server`, TLS handshakes, SQLite
    opens) are modelled as explicit inputs to the functions that consume
    their results; they do not touch the filesystem in the source either.
-/

/-! ## Character and string helpers (models of Rust `str` methods) -/

/-- Model of Rust `str::trim` on the character list: drop leading and
trailing whitespace. -/
def trimChars (l : List Char) : List Char :=
  ((l.dropWhile Char.isWhitespace).reverse.dropWhile Char.isWhitespace).reverse

/-- Model of Rust `str::trim` at `String` type. -/
def rustTrim (s : String) : String := ⟨trimChars s.data⟩

/-- Model of Rust `char::to_ascii_lowercase`. -/
def asciiLowerChar (c : Char) : Char :=
  if 'A' ≤ c ∧ c ≤ 'Z' then Char.ofNat (c.toNat + 32) else c

/-- Model of Rust `str::to_ascii_lowercase` / `str::to_lowercase`
restricted to ASCII (all strings the claims touch are ASCII). -/
def asciiLowerStr (s : String) : String := ⟨s.data.map asciiLowerChar⟩

/-- Model of Rust `char::is_ascii_hexdigit`. -/
def isAsciiHexDigit (c : Char) : Bool :=
  ('0' ≤ c ∧ c ≤ '9') ∨ ('a' ≤ c ∧ c ≤ 'f') ∨ ('A' ≤ c ∧ c ≤ 'F')

/-- Model of Rust `str::split(c)`: splits at every occurrence of `c`,
keeping empty segments (`"".split(c)` is `[""]`, `"a/".split('/')` is
`["a", ""]`). -/
def splitChar (c : Char) : List Char → List (List Char)
  | [] => [[]]
  | a :: rest =>
    if a = c then [] :: splitChar c rest
    else
      match splitChar c rest with
      | s :: ss => (a :: s) :: ss
      | [] => [[a]]

/-- `str::split` at `String` type. -/
def splitCharS (c : Char) (s : String) : List String :=
  (splitChar c s.data).map (fun l => ⟨l⟩)

/-- Model of Rust `str::trim_start_matches('/')`: drop every leading `'/'`. -/
def dropLeadingSlashes (s : String) : String := ⟨s.data.dropWhile (· = '/')⟩

/-- Model of Rust `str::strip_prefix` on character lists. -/
def stripPre : List Char → List Char → Option (List Char)
  | [], s => some s
  | _ :: _, [] => none
  | a :: ps, b :: ss => if a = b then stripPre ps ss else none

/-- Model of Rust `str::split_once(c)`: split at the first occurrence. -/
def splitOnce (c : Char) : List Char → Option (List Char × List Char)
  | [] => none
  | a :: rest =>
    if a = c then some ([], rest)
    else (splitOnce c rest).map (fun p => (a :: p.1, p.2))

/-- Model of Rust `str::ends_with` (used on already-lowercased paths). -/
def endsWithChars (suf : List Char) (l : List Char) : Bool :=
  suf.isSuffixOf l

/-- Decimal digit character, as produced by Rust's `Display` for integers. -/
def digitChar10 (n : Nat) : Char :=
  match n with
  | 0 => '0' | 1 => '1' | 2 => '2' | 3 => '3' | 4 => '4'
  | 5 => '5' | 6 => '6' | 7 => '7' | 8 => '8' | _ => '9'

/-- Little-endian decimal digits of `n` (auxiliary for `natDecimal`). -/
def natDigitsRev (n : Nat) : List Char :=
  if h : n < 10 then [digitChar10 n]
  else digitChar10 (n % 10) :: natDigitsRev (n / 10)
termination_by n
decreasing_by
  exact Nat.div_lt_self (by omega) (by omega)

/-- Model of Rust's decimal rendering `format!("{}", n)` for unsigned
integers, as a character list. -/
def natDecimal (n : Nat) : List Char := (natDigitsRev n).reverse

/-! ## SHA-256 (model of the `sha2` crate's FIPS 180-4 implementation,
used by `sha256_hex` in both `plugin_store.rs` and `tcp_real.rs`). -/

/-- 32-bit rotate right. -/
def rotr32 (n x : Nat) : Nat := ((x >>> n) ||| (x <<< (32 - n))) % 4294967296

def shaBigS0 (x : Nat) : Nat := rotr32 2 x ^^^ rotr32 13 x ^^^ rotr32 22 x
def shaBigS1 (x : Nat) : Nat := rotr32 6 x ^^^ rotr32 11 x ^^^ rotr32 25 x
def shaS0 (x : Nat) : Nat := rotr32 7 x ^^^ rotr32 18 x ^^^ (x >>> 3)
def shaS1 (x : Nat) : Nat := rotr32 17 x ^^^ rotr32 19 x ^^^ (x >>> 10)
def shaCh (x y z : Nat) : Nat := (x &&& y) ^^^ ((x ^^^ 4294967295) &&& z)
def shaMaj (x y z : Nat) : Nat := (x &&& y) ^^^ (x &&& z) ^^^ (y &&& z)

/-- The SHA-256 round constants (decimal). -/
def shaK : List Nat :=
  [1116352408, 1899447441, 3049323471, 3921009573, 961987163,
   1508970993, 2453635748, 2870763221, 3624381080, 310598401,
   607225278, 1426881987, 1925078388, 2162078206, 2614888103,
   3248222580, 3835390401, 4022224774, 264347078, 604807628,
   770255983, 1249150122, 1555081692, 1996064986, 2554220882,
   2821834349, 2952996808, 3210313671, 3336571891, 3584528711,
   113926993, 338241895, 666307205, 773529912, 1294757372,
   1396182291, 1695183700, 1986661051, 2177026350, 2456956037,
   2730485921, 2820302411, 3259730800, 3345764771, 3516065817,
   3600352804, 4094571909, 275423344, 430227734, 506948616,
   659060556, 883997877, 958139571, 1322822218, 1537002063,
   1747873779, 1955562222, 2024104815, 2227730452, 2361852424,
   2428436474, 2756734187, 3204031479, 3329325298]

/-- The SHA-256 initial hash value (decimal). -/
def shaH0 : List Nat :=
  [1779033703, 3144134277, 1013904242, 2773480762,
   1359893119, 2600822924, 528734635, 1541459225]

/-- Big-endian 64-bit length field of the padding. -/
def shaLen64 (n : Nat) : List Nat :=
  (List.range 8).map (fun i => n / 2 ^ (8 * (7 - i)) % 256)

/-- SHA-256 message padding: append `0x80`, zeros, and the 64-bit bit-length
so the total is a multiple of 64 bytes. -/
def shaPad (msg : List Nat) : List Nat :=
  let l := msg.length
  let k := (119 - l % 64) % 64
  msg.map (· % 256) ++ [128] ++ List.replicate k 0 ++ shaLen64 (8 * l)

/-- Group bytes into big-endian 32-bit words. -/
def shaWords : List Nat → List Nat
  | b0 :: b1 :: b2 :: b3 :: rest =>
    (((b0 * 256 + b1) * 256 + b2) * 256 + b3) :: shaWords rest
  | _ => []

/-- Extend the 16 message words into the 64-word schedule. -/
def shaExtend (w : List Nat) : List Nat :=
  (List.range 48).foldl
    (fun w _ =>
      let n := w.length
      w ++ [(w.getD (n - 16) 0 + shaS0 (w.getD (n - 15) 0) +
             w.getD (n - 7) 0 + shaS1 (w.getD (n - 2) 0)) % 4294967296])
    w

/-- One SHA-256 compression round on the 8-word working state. -/
def shaRound (st : List Nat) (k w : Nat) : List Nat :=
  match st with
  | [a, b, c, d, e, f, g, h] =>
    let t1 := (h + shaBigS1 e + shaCh e f g + k + w) % 4294967296
    let t2 := (shaBigS0 a + shaMaj a b c) % 4294967296
    [(t1 + t2) % 4294967296, a, b, c, (d + t1) % 4294967296, e, f, g]
  | other => other

/-- Compress one 64-byte block into the hash state. -/
def shaCompress (hs : List Nat) (block : List Nat) : List Nat :=
  let w := shaExtend (shaWords block)
  let st := (shaK.zip w).foldl (fun st kw => shaRound st kw.1 kw.2) hs
  (hs.zip st).map (fun p => (p.1 + p.2) % 4294967296)

/-- Fold the compression function over all 64-byte blocks.  Structural
recursion on a fuel bound (each step consumes 64 > 0 bytes, so
`msg.length` steps always suffice); fuel keeps the definition reducible
by the kernel. -/
def shaBlocksFuel : Nat → List Nat → List Nat → List Nat
  | 0, hs, _ => hs
  | _, hs, [] => hs
  | fuel + 1, hs, b :: rest =>
    shaBlocksFuel fuel (shaCompress hs ((b :: rest).take 64)) ((b :: rest).drop 64)

def shaBlocks (hs : List Nat) (msg : List Nat) : List Nat :=
  shaBlocksFuel msg.length hs msg

/-- Lowercase hexadecimal digit. -/
def hexDigit (n : Nat) : Char :=
  match n with
  | 0 => '0' | 1 => '1' | 2 => '2' | 3 => '3' | 4 => '4'
  | 5 => '5' | 6 => '6' | 7 => '7' | 8 => '8' | 9 => '9'
  | 10 => 'a' | 11 => 'b' | 12 => 'c' | 13 => 'd' | 14 => 'e'
  | _ => 'f'

/-- A 32-bit word as 8 lowercase hex characters. -/
def wordHex (w : Nat) : List Char :=
  (List.range 8).map (fun i => hexDigit (w / 16 ^ (7 - i) % 16))

/-- Model of `sha256_hex` (`plugin_store.rs` lines 332-336 and
`tcp_real.rs` lines 243-247): lowercase hex of the SHA-256 digest. -/
def sha256_hex (bytes : List Nat) : String :=
  ⟨((shaBlocks shaH0 (shaPad bytes)).map wordHex).flatten⟩

/-- Model of `eq_hash_hex` (`plugin_store.rs` lines 338-340):
`a.trim().eq_ignore_ascii_case(b.trim())`. -/
def eq_hash_hex (a b : String) : Bool :=
  asciiLowerStr (rustTrim a) = asciiLowerStr (rustTrim b)

example : sha256_hex [] =
    "e3b0c44298fc1c149afbf4c8996fb92427ae41e4649b934ca495991b7852b855" := by
  decide

/-! ## Session deframer (`tcp_real.rs`, `TcpServiceReal::start`, lines 99-158)

The reader task accumulates received chunks in `acc` and drains complete
2-byte big-endian length-prefixed frames.  `drainFrames acc` returns the
residual accumulator and the list of payloads emitted by one run of the
inner drain loop, in emission order. -/

/-- `u16::from_be_bytes([a, b]) as usize`: the parsed frame length. -/
def be16 (a b : Nat) : Nat := (a % 256) * 256 + (b % 256)

/-- One run of the inner drain loop of the reader task:
  * fewer than 2 bytes: wait for more input;
  * length 0: consume the header, emit nothing, continue;
  * length > 10 000 000: clear the accumulator and break (frames already
    emitted stay emitted: the caller of the recursive step prepends them);
  * incomplete payload: wait for more input;
  * otherwise extract the payload, drain it, emit it, continue. -/
def drainFrames : List Nat → List Nat × List (List Nat)
  | a :: b :: rest =>
    let len := be16 a b
    if len = 0 then drainFrames rest
    else if 10000000 < len then ([], [])
    else if rest.length < len then (a :: b :: rest, [])
    else
      let out := drainFrames (rest.drop len)
      (out.1, rest.take len :: out.2)
  | acc => (acc, [])
termination_by acc => acc.length
decreasing_by
  · simp
    omega
  · simp [List.length_drop]
    omega

/-- The same drain loop with the `len > 10_000_000` branch removed.
Used to show that branch is dead code. -/
def drainFramesNoLimit : List Nat → List Nat × List (List Nat)
  | a :: b :: rest =>
    let len := be16 a b
    if len = 0 then drainFramesNoLimit rest
    else if rest.length < len then (a :: b :: rest, [])
    else
      let out := drainFramesNoLimit (rest.drop len)
      (out.1, rest.take len :: out.2)
  | acc => (acc, [])
termination_by acc => acc.length
decreasing_by
  · simp
    omega
  · simp [List.length_drop]
    omega

/-- The reader task over a sequence of received chunks: the accumulator
persists across chunks; the drain loop runs after every chunk; emitted
frames are concatenated in order. -/
def readerRun (chunks : List (List Nat)) : List Nat × List (List Nat) :=
  chunks.foldl
    (fun st c =>
      let d := drainFrames (st.1 ++ c)
      (d.1, st.2 ++ d.2))
    ([], [])

/-- Modelled from the spec: "the complete 2-byte big-endian length-prefixed
records in the stream" — sequential records, each a 2-byte big-endian
length followed by that many payload bytes; parsing stops at the first
incomplete record.  A record of length 0 contributes an empty payload. -/
def spec_record_payloads : List Nat → List (List Nat)
  | a :: b :: rest =>
    let len := be16 a b
    if rest.length < len then []
    else rest.take len :: spec_record_payloads (rest.drop len)
  | _ => []
termination_by s => s.length
decreasing_by
  simp [List.length_drop]
  omega

/-! ## Session transport parsing and TLS fingerprint check (`tcp_real.rs`) -/

/-- The `Transport` enum of `tcp_real.rs` (lines 14-20). -/
inductive Transport
  | plain
  | tls (insecure : Bool) (fingerprint_sha256 : Option (List Char))
deriving DecidableEq, Repr

/-- Model of `normalize_fingerprint` (`tcp_real.rs` lines 235-241 and
`plugin_store.rs` lines 128-134): trim, lowercase, keep hex digits. -/
def normalize_fingerprint (raw : List Char) : List Char :=
  ((trimChars raw).map asciiLowerChar).filter isAsciiHexDigit

/-- `normalize_fingerprint` at `String` type. -/
def normalize_fingerprintS (raw : String) : String :=
  ⟨normalize_fingerprint raw.data⟩

/-- Model of `parse_transport` (`tcp_real.rs` lines 189-233).  The address
part is returned alongside the transport. -/
def parse_transport (raw : List Char) : Transport × List Char :=
  match stripPre "tls-fp://".data raw with
  | some rest =>
    match splitOnce '@' rest with
    | some (fp, addr) => (Transport.tls true (some (normalize_fingerprint fp)), addr)
    | none => (Transport.tls true (some []), rest)
  | none =>
    match stripPre "tls-insecure://".data raw with
    | some rest => (Transport.tls true none, rest)
    | none =>
      match stripPre "tls://".data raw with
      | some rest => (Transport.tls false none, rest)
      | none =>
        match stripPre "tcp://".data raw with
        | some rest => (Transport.plain, rest)
        | none => (Transport.plain, raw)

/-- The `danger_accept_invalid_certs` / `danger_accept_invalid_hostnames`
flags set on the TLS connector by `TcpServiceReal::connect`
(`tcp_real.rs` lines 62-66): both are enabled exactly when the transport
is marked insecure. -/
def tls_connector_accepts_invalid (insecure : Bool) : Bool × Bool :=
  if insecure then (true, true) else (false, false)

/-- Model of `verify_tls_fingerprint_sha256` (`tcp_real.rs` lines 249-282).
`peer` is the result of `peer_certificate()` — `none` when the peer
presented no certificate — and a certificate is its DER byte encoding. -/
def verify_tls_fingerprint_sha256 (peer : Option (List Nat))
    (expected_sha256 : String) : Except String Unit :=
  let expected := normalize_fingerprintS expected_sha256
  if expected.length ≠ 64 then
    .error "Invalid TLS fingerprint: expected SHA-256 (64 hex chars)"
  else
    match peer with
    | none => .error "TLS fingerprint check failed: missing peer certificate"
    | some der =>
      if sha256_hex der ≠ expected then .error "TLS fingerprint mismatch"
      else .ok ()

/-! ## TLS policy and HTTPS fingerprint check (`plugin_store.rs`) -/

/-- The `TlsPolicy` enum (`plugin_store.rs` lines 113-118). -/
inductive TlsPolicy
  | strict
  | insecure
  | trustFingerprint
deriving DecidableEq, Repr

/-- Model of `parse_tls_policy` (`plugin_store.rs` lines 120-126). -/
def parse_tls_policy (raw : Option String) : TlsPolicy :=
  match rustTrim (raw.getD "strict") with
  | "insecure" => TlsPolicy.insecure
  | "trust_fingerprint" => TlsPolicy.trustFingerprint
  | _ => TlsPolicy.strict

/-- The `danger_accept_invalid_certs` / `danger_accept_invalid_hostnames`
flags set on the TLS connector inside `verify_https_fingerprint`
(`plugin_store.rs` lines 241-244): always both enabled — the fingerprint
is the trust root. -/
def verify_https_connector_accepts_invalid : Bool × Bool := (true, true)

/-- The flags set by `build_reqwest_client` (`plugin_store.rs` lines
272-280): invalid certs and hostnames are accepted for any non-strict
policy. -/
def build_reqwest_client_accepts_invalid (policy : TlsPolicy) : Bool × Bool :=
  if policy ≠ TlsPolicy.strict then (true, true) else (false, false)

/-- Model of the decision core of `verify_https_fingerprint`
(`plugin_store.rs` lines 226-270).  The TCP connect and TLS handshake are
network effects; `peer` is the retrieved peer certificate DER (`none`
when the peer presented none). -/
def verify_https_fingerprint (peer : Option (List Nat))
    (expected_sha256 : String) : Except String Unit :=
  let expected := normalize_fingerprintS expected_sha256
  if expected.length ≠ 64 then
    .error "Invalid TLS fingerprint: expected SHA-256 (64 hex chars)"
  else
    match peer with
    | none => .error "TLS fingerprint check failed: missing peer certificate"
    | some der =>
      if sha256_hex der ≠ expected then .error "TLS fingerprint mismatch"
      else .ok ()

/-! ## Origins and the same-origin gate (`plugin_store.rs`) -/

/-- A parsed URL as observed through `reqwest::Url` (the `url` crate):
`scheme`, `host`, and the explicit port.  The `url` crate normalizes away
a port equal to the scheme's known default at parse time, so `port` is
never `some` of the default. -/
structure ParsedUrl where
  scheme : String
  host : String
  port : Option Nat
deriving DecidableEq, Repr

/-- The `url` crate's table of known default ports. -/
def known_default_port (scheme : String) : Option Nat :=
  match scheme with
  | "http" => some 80
  | "https" => some 443
  | "ws" => some 80
  | "wss" => some 443
  | "ftp" => some 21
  | _ => none

/-- Parse-time normalization of the `url` crate: a port equal to the
scheme's known default is dropped. -/
def mkParsedUrl (scheme host : String) (port : Option Nat) : ParsedUrl :=
  ⟨scheme, host, if port = known_default_port scheme then none else port⟩

/-- Model of `port_suffix` (`plugin_store.rs` lines 207-212):
`format!(":{}", p)` for an explicit port, `""` otherwise. -/
def port_suffix (u : ParsedUrl) : List Char :=
  match u.port with
  | some p => ':' :: natDecimal p
  | none => []

/-- The `url` crate's `port_or_known_default`: the explicit port, or the
scheme's known default. -/
def port_or_known_default (u : ParsedUrl) : Option Nat :=
  match u.port with
  | some p => some p
  | none => known_default_port u.scheme

/-- The origin gate of `network_fetch` (`plugin_store.rs` lines 1206-1211):
`same_origin` compares scheme, host and `port_suffix`; a mismatch is
refused with the cross-origin error. -/
def network_fetch_origin_check (target base : ParsedUrl) : Except String Unit :=
  let same_origin := target.scheme = base.scheme ∧ target.host = base.host ∧
    port_suffix target = port_suffix base
  if same_origin then .ok ()
  else .error "Network access denied: cross-origin"

/-! ## Path segments, `safe_join`, and the `app://` resolver
(`plugin_store.rs` lines 148-169 and 1309-1336).

Filesystem paths are modelled as lists of components appended to a base
directory; `base_plugins_dir` (lines 136-146) depends on the process
working directory, so the base is a parameter where it matters and the
fixed list `["data", "plugins"]` elsewhere. -/

/-- Model of `sanitize_segment` (`plugin_store.rs` lines 148-160). -/
def sanitize_segment (seg : String) : Except String String :=
  let s := rustTrim seg
  if s = "" then .error "Invalid empty path segment"
  else if s = "." ∨ s = ".." ∨ s.data.contains '\\' ∨ s.data.contains '/' then
    .error "Invalid path segment"
  else if s.data.contains ':' then .error "Invalid path segment (contains colon)"
  else .ok s

/-- Model of `safe_join` (`plugin_store.rs` lines 162-169). -/
def safe_join (root : List String) : List String → Except String (List String)
  | [] => .ok root
  | s :: rest =>
    match sanitize_segment s with
    | .error e => .error e
    | .ok seg => safe_join (root ++ [seg]) rest

/-- The repository-relative plugins base directory `data/plugins`
(`base_plugins_dir`, lines 136-146). -/
def base_plugins_dir : List String := ["data", "plugins"]

/-- Model of `resolve_app_plugins_path` (`plugin_store.rs` lines
1309-1336), with the base directory as an explicit parameter. -/
def resolve_app_plugins_path (base : List String)
    (server_id plugin_id version rel_path : String) :
    Except String (List String) :=
  let rel := dropLeadingSlashes (rustTrim rel_path)
  if rel = "" then .error "Missing relative path"
  else if rel.data.contains '\\' then
    .error "Invalid relative path (contains backslash)"
  else if ¬ (splitCharS '/' rel).all
      (fun seg => ¬ (seg = "" ∨ seg = "." ∨ seg = "..")) then
    .error "Invalid relative path segment"
  else
    match safe_join base [server_id, plugin_id, version] with
    | .error e => .error e
    | .ok root => .ok (root ++ splitCharS '/' rel)

/-! ## Zip entry safety and the unpack loop
(`plugin_store.rs` lines 342-388 and the blocking tasks at lines 709-768
and 894-951; `install_from_url` and `install_from_server_catalog` inline
the identical loop). -/

/-- Model of `normalize_zip_name` (`plugin_store.rs` lines 342-344):
replace `'\'` by `'/'`, then strip all leading `'/'`. -/
def normalize_zip_name (raw : String) : String :=
  dropLeadingSlashes ⟨raw.data.map (fun c => if c = '\\' then '/' else c)⟩

/-- Model of `is_zip_name_safe` (`plugin_store.rs` lines 346-364). -/
def is_zip_name_safe (name : String) : Bool :=
  if name = "" then false
  else if name.data.take 1 = ['/'] then false
  else if name.data.contains ':' then false
  else (splitCharS '/' name).all (fun seg => ¬ (seg = "" ∨ seg = "." ∨ seg = ".."))

/-- Model of `detect_single_root_prefix` (`plugin_store.rs` lines
366-380): the shared first segment of all names, provided every name has
at least two segments; `none` otherwise. -/
def detect_single_root_loop (pre : Option String) : List String → Option String
  | [] => pre
  | n :: rest =>
    let segs := splitCharS '/' n
    if segs.length < 2 then none
    else
      match pre with
      | some p => if p ≠ segs.headD "" then none else detect_single_root_loop (some p) rest
      | none => detect_single_root_loop (some (segs.headD "")) rest

def detect_single_root_prefix (names : List String) : Option String :=
  detect_single_root_loop none names

/-- Model of `strip_root_prefix` (`plugin_store.rs` lines 382-388). -/
def strip_root_prefix (name : String) (pre : String) : String :=
  match stripPre pre.data name.data with
  | none => name
  | some rest => dropLeadingSlashes ⟨rest⟩

/-- Model of `is_forbidden_source_file` (`plugin_store.rs` lines
1008-1019). -/
def is_forbidden_source_file (path : String) : Bool :=
  let lower := (asciiLowerStr path).data
  if endsWithChars ".d.ts".data lower then false
  else
    endsWithChars ".vue".data lower ∨ endsWithChars ".ts".data lower ∨
    endsWithChars ".tsx".data lower ∨ endsWithChars ".scss".data lower ∨
    endsWithChars ".sass".data lower ∨ endsWithChars ".less".data lower

/-- `PluginProvidesDomain` (`plugin_store.rs` lines 27-32). -/
structure PluginProvidesDomain where
  domain : String
  domain_version : String
deriving DecidableEq, Repr

/-- `PluginManifestV1` (`plugin_store.rs` lines 34-47). -/
structure PluginManifestV1 where
  plugin_id : String
  name : String
  version : String
  min_host_version : String
  description : Option String
  author : Option String
  license : Option String
  entry : String
  permissions : List String
  provides_domains : List PluginProvidesDomain
deriving DecidableEq, Repr

/-- `PluginCurrent` (`plugin_store.rs` lines 49-54). -/
structure PluginCurrent where
  version : String
  enabled : Bool
deriving DecidableEq, Repr

/-- `PluginStateFile` (`plugin_store.rs` lines 56-61). -/
structure PluginStateFile where
  status : String
  last_error : String
deriving DecidableEq, Repr

/-- `InstalledPluginState` (`plugin_store.rs` lines 63-72). -/
structure InstalledPluginState where
  plugin_id : String
  installed_versions : List String
  current_version : Option String
  enabled : Bool
  status : String
  last_error : String
deriving DecidableEq, Repr

/-- The parsed content of a file, modelling serde JSON round-trips: a
file either holds one of the structured JSON documents the store reads
and writes, or opaque bytes. -/
inductive FileData
  | cur (c : PluginCurrent)
  | state (s : PluginStateFile)
  | manifest (m : PluginManifestV1)
  | blob (bytes : List Nat)
deriving DecidableEq, Repr

/-- A zip archive entry as surfaced by the `zip` crate: its declared
name, whether it is a directory entry, and its (parsed) content. -/
structure ZipEntry where
  name : String
  is_dir : Bool
  data : FileData
deriving DecidableEq, Repr

/-- A write performed by the unpack loop: the normalized source entry
name, the final (root-stripped) relative path, and the content. -/
structure UnpackWrite where
  src : String
  final : String
  data : FileData
deriving DecidableEq, Repr

/-- The per-entry unpack loop (`plugin_store.rs` lines 727-767 and
910-950): skip empty normalized names, reject unsafe names, strip a
detected single root, reject unsafe stripped names and forbidden source
files, record file writes.  Returns the writes performed (in order) and
the error that stopped the loop, if any; writes performed before an
error stay on disk. -/
def unpack_loop (root_pre : Option String) :
    List ZipEntry → List UnpackWrite × Option String
  | [] => ([], none)
  | e :: rest =>
    let normalized := normalize_zip_name e.name
    if normalized = "" then unpack_loop root_pre rest
    else if ¬ is_zip_name_safe normalized then
      ([], some ("Unsafe zip entry path: " ++ normalized))
    else
      let final_name :=
        match root_pre with
        | some p => strip_root_prefix normalized p
        | none => normalized
      if final_name = "" then unpack_loop root_pre rest
      else if ¬ is_zip_name_safe final_name then
        ([], some ("Unsafe zip entry path after strip: " ++ final_name))
      else if e.is_dir then unpack_loop root_pre rest
      else if is_forbidden_source_file final_name then
        ([], some ("Plugin package contains forbidden source file: " ++ final_name))
      else
        let out := unpack_loop root_pre rest
        (⟨normalized, final_name, e.data⟩ :: out.1, out.2)

/-- The names collected by the first pass of the unpack task (lines
713-724 and 896-907): normalized names of non-directory entries,
excluding empty ones. -/
def unpack_names (entries : List ZipEntry) : List String :=
  (entries.filter (fun e => ¬ e.is_dir)).map (fun e => normalize_zip_name e.name)
    |>.filter (fun n => n ≠ "")

/-- The full unpack step of the install blocking task: detect a single
root, then run the per-entry loop. -/
def unpack_entries (entries : List ZipEntry) : List UnpackWrite × Option String :=
  unpack_loop ( detect_single_root_prefix (unpack_names entries)) entries

/-! ## The filesystem model and the plugin store state files
(`plugin_store.rs` lines 390-507).

`FS` is a path-indexed store: `dirs` records created directories and
`files` maps paths (component lists) to parsed contents.  I/O primitives
(`tokio::fs::write`, `read_to_string`, `create_dir_all`, `metadata`,
`read_dir`) are modelled as total operations on this store; genuine disk
failures are outside the model. -/

structure FS where
  dirs : List (List String)
  files : List (List String × FileData)
deriving DecidableEq, Repr

def fs_lookup (fs : FS) (p : List String) : Option FileData :=
  (fs.files.find? (fun kv => kv.1 = p)).map (fun kv => kv.2)

/-- Writing shadows any previous binding; `fs_lookup` reads the newest,
so this is observationally the overwrite that `tokio::fs::write`
performs. -/
def fs_write (fs : FS) (p : List String) (d : FileData) : FS :=
  { fs with files := (p, d) :: fs.files }

def fs_mkdir (fs : FS) (p : List String) : FS :=
  { fs with dirs := if fs.dirs.contains p then fs.dirs else p :: fs.dirs }

/-- Model of `tokio::fs::metadata(path).is_ok()`: the path names an
existing file or directory. -/
def entry_exists (fs : FS) (p : List String) : Bool :=
  (fs_lookup fs p).isSome ∨ fs.dirs.contains p

/-- Model of `PathBuf::join` with a relative path string. -/
def joinRel (dir : List String) (rel : String) : List String :=
  if rel = "" then dir else dir ++ splitCharS '/' rel

/-- `plugin_root_dir` (`plugin_store.rs` lines 424-428). -/
def plugin_root_dir (server_id plugin_id : String) : Except String (List String) :=
  safe_join base_plugins_dir [server_id, plugin_id]

/-- `plugin_version_dir` (`plugin_store.rs` lines 430-434). -/
def plugin_version_dir (server_id plugin_id version : String) :
    Except String (List String) :=
  safe_join base_plugins_dir [server_id, plugin_id, version]

/-- `current_file_path` (lines 436-438). -/
def current_file_path (server_id plugin_id : String) : Except String (List String) :=
  (plugin_root_dir server_id plugin_id).map (fun r => r ++ ["current.json"])

/-- `state_file_path` (lines 440-442). -/
def state_file_path (server_id plugin_id : String) : Except String (List String) :=
  (plugin_root_dir server_id plugin_id).map (fun r => r ++ ["state.json"])

/-- `manifest_file_path` (lines 444-446). -/
def manifest_file_path (server_id plugin_id version : String) :
    Except String (List String) :=
  (plugin_version_dir server_id plugin_id version).map (fun r => r ++ ["plugin.json"])

/-- `read_current` (lines 470-473), via `read_json_file`: a missing file
is `none`, a file of the wrong shape is a parse error. -/
def read_current (fs : FS) (server_id plugin_id : String) :
    Except String (Option PluginCurrent) :=
  match current_file_path server_id plugin_id with
  | .error e => .error e
  | .ok p =>
    match fs_lookup fs p with
    | none => .ok none
    | some (.cur c) => .ok (some c)
    | some _ => .error "Failed to parse JSON: current.json"

/-- `write_current` (lines 475-478), via `write_json_file` (which
creates the parent directory first). -/
def write_current (fs : FS) (server_id plugin_id : String) (c : PluginCurrent) :
    Except String FS :=
  match current_file_path server_id plugin_id with
  | .error e => .error e
  | .ok p => .ok (fs_write (fs_mkdir fs p.dropLast) p (.cur c))

/-- `read_state_file` (lines 480-487): a missing or empty file defaults
to `{ok, ""}`. -/
def read_state_file (fs : FS) (server_id plugin_id : String) :
    Except String PluginStateFile :=
  match state_file_path server_id plugin_id with
  | .error e => .error e
  | .ok p =>
    match fs_lookup fs p with
    | none => .ok ⟨"ok", ""⟩
    | some (.state s) => .ok s
    | some _ => .error "Failed to parse JSON: state.json"

/-- `write_state_file` (lines 489-492). -/
def write_state_file (fs : FS) (server_id plugin_id : String) (st : PluginStateFile) :
    Except String FS :=
  match state_file_path server_id plugin_id with
  | .error e => .error e
  | .ok p => .ok (fs_write (fs_mkdir fs p.dropLast) p (.state st))

/-- `list_installed_versions` (lines 448-468): the names of the
directories directly under the plugin root, deduplicated and sorted
ascending (the `BTreeSet` iteration order). -/
def list_installed_versions (fs : FS) (server_id plugin_id : String) :
    Except String (List String) :=
  match plugin_root_dir server_id plugin_id with
  | .error e => .error e
  | .ok root =>
    let names := fs.dirs.filterMap (fun d =>
      if d.dropLast = root ∧ d ≠ [] ∧ rustTrim (d.getLastD "") ≠ ""
      then some (d.getLastD "") else none)
    .ok (List.insertionSort (fun a b => a ≤ b) names.dedup)

/-- `build_installed_state` (lines 494-507). -/
def build_installed_state (fs : FS) (server_id plugin_id : String) :
    Except String InstalledPluginState :=
  match list_installed_versions fs server_id plugin_id with
  | .error e => .error e
  | .ok installed_versions =>
    match read_current fs server_id plugin_id with
    | .error e => .error e
    | .ok current =>
      match read_state_file fs server_id plugin_id with
      | .error e => .error e
      | .ok state =>
        .ok { plugin_id := plugin_id
              installed_versions := installed_versions
              current_version := current.map (fun c => c.version)
              enabled := (current.map (fun c => c.enabled)).getD false
              status := state.status
              last_error := state.last_error }

/-! ## `enable` and `set_failed` (`plugin_store.rs` lines 1021-1095).

The `server_id` argument stands for the value fetched from
`GET /api/server`; the TLS-policy client construction preceding it has no
filesystem effect.  Each operation returns the resulting filesystem
(error paths keep the writes performed before the error, exactly as the
source does) together with its result. -/

def enable (fs : FS) (server_id plugin_id : String) :
    FS × Except String InstalledPluginState :=
  match read_current fs server_id plugin_id with
  | .error e => (fs, .error e)
  | .ok none => (fs, .error ("Plugin is not installed: " ++ plugin_id))
  | .ok (some current) =>
    match manifest_file_path server_id plugin_id current.version with
    | .error e => (fs, .error e)
    | .ok mpath =>
      match fs_lookup fs mpath with
      | none => (fs, .error "Missing plugin.json")
      | some (.cur _) => (fs, .error "Invalid plugin.json")
      | some (.state _) => (fs, .error "Invalid plugin.json")
      | some (.blob _) => (fs, .error "Invalid plugin.json")
      | some (.manifest m) =>
        match plugin_version_dir server_id plugin_id current.version with
        | .error e => (fs, .error e)
        | .ok vdir =>
          let entry_rel := rustTrim m.entry
          let entry_path := joinRel vdir entry_rel
          if entry_exists fs entry_path then
            match write_current fs server_id plugin_id { current with enabled := true } with
            | .error e => (fs, .error e)
            | .ok fs1 =>
              match write_state_file fs1 server_id plugin_id ⟨"ok", ""⟩ with
              | .error e => (fs1, .error e)
              | .ok fs2 =>
                match build_installed_state fs2 server_id plugin_id with
                | .error e => (fs2, .error e)
                | .ok st => (fs2, .ok st)
          else
            let msg := "Missing plugin entry: " ++ entry_rel
            match write_state_file fs server_id plugin_id ⟨"failed", msg⟩ with
            | .error e => (fs, .error e)
            | .ok fs1 => (fs1, .error msg)

def set_failed (fs : FS) (server_id plugin_id message : String) :
    FS × Except String InstalledPluginState :=
  match read_current fs server_id plugin_id with
  | .error e => (fs, .error e)
  | .ok none => (fs, .error ("Plugin is not installed: " ++ plugin_id))
  | .ok (some current) =>
    match write_current fs server_id plugin_id { current with enabled := false } with
    | .error e => (fs, .error e)
    | .ok fs1 =>
      match write_state_file fs1 server_id plugin_id ⟨"failed", rustTrim message⟩ with
      | .error e => (fs1, .error e)
      | .ok fs2 =>
        match build_installed_state fs2 server_id plugin_id with
        | .error e => (fs2, .error e)
        | .ok st => (fs2, .ok st)

/-! ## The two install operations (`plugin_store.rs` lines 626-1006).

Network steps are modelled as inputs: `server_id` is the `/api/server`
response, `bytes` is the downloaded zip body, and `archive` is the
result of `ZipArchive::new` on those bytes (`.error` for an unreadable
archive).  Both installers run the identical unpack-and-commit sequence
after their respective validations; the source inlines it twice. -/

def apply_unpack_writes (fs : FS) (vdir : List String) (ws : List UnpackWrite) : FS :=
  ws.foldl
    (fun fs w =>
      let p := vdir ++ splitCharS '/' w.final
      fs_write (fs_mkdir fs p.dropLast) p w.data)
    fs

/-- Steps 5-10 of the install algorithm: create the version directory,
unpack, verify the manifest, initialize `current.json` on first install,
reset `state.json`, and return the derived state. -/
def install_unpack_commit (fs : FS) (server_id id v : String)
    (archive : Except String (List ZipEntry)) :
    FS × Except String InstalledPluginState :=
  match plugin_version_dir server_id id v with
  | .error e => (fs, .error e)
  | .ok vdir =>
    let fs1 := fs_mkdir fs vdir
    match archive with
    | .error _ => (fs1, .error "Invalid zip archive")
    | .ok entries =>
      let out := unpack_entries entries
      let fs2 := apply_unpack_writes fs1 vdir out.1
      match out.2 with
      | some e => (fs2, .error e)
      | none =>
        match fs_lookup fs2 (vdir ++ ["plugin.json"]) with
        | none => (fs2, .error "Missing plugin.json")
        | some (.cur _) => (fs2, .error "Invalid plugin.json")
        | some (.state _) => (fs2, .error "Invalid plugin.json")
        | some (.blob _) => (fs2, .error "Invalid plugin.json")
        | some (.manifest m) =>
          if rustTrim m.plugin_id ≠ id then
            (fs2, .error "plugin_id mismatch in manifest")
          else if rustTrim m.version ≠ v then
            (fs2, .error "version mismatch in manifest")
          else if rustTrim m.entry = "" then
            (fs2, .error "Manifest entry is empty")
          else
            match read_current fs2 server_id id with
            | .error e => (fs2, .error e)
            | .ok cur =>
              let fs3r :=
                if cur.isNone then write_current fs2 server_id id ⟨v, false⟩
                else .ok fs2
              match fs3r with
              | .error e => (fs2, .error e)
              | .ok fs3 =>
                match write_state_file fs3 server_id id ⟨"ok", ""⟩ with
                | .error e => (fs3, .error e)
                | .ok fs4 =>
                  match build_installed_state fs4 server_id id with
                  | .error e => (fs4, .error e)
                  | .ok st => (fs4, .ok st)

/-- Model of `install_from_url` (`plugin_store.rs` lines 827-1006).
Origin derivation and client selection (lines 836-876) are pure network
steps with no filesystem effect; the downloaded body is `bytes`. -/
def install_from_url (fs : FS) (server_id plugin_id version download_url
    sha256_expected : String) (bytes : List Nat)
    (archive : Except String (List ZipEntry)) :
    FS × Except String InstalledPluginState :=
  let id := rustTrim plugin_id
  if id = "" then (fs, .error "Missing plugin_id")
  else
    let v := rustTrim version
    if v = "" then (fs, .error "Missing version")
    else
      let url := rustTrim download_url
      if url = "" then (fs, .error "Missing download url")
      else
        let sha := rustTrim sha256_expected
        if sha = "" then (fs, .error "Missing sha256")
        else
          let got := sha256_hex bytes
          if ¬ eq_hash_hex got sha then (fs, .error "SHA256 mismatch")
          else install_unpack_commit fs server_id id v archive

/-- `ApiDownload` (`plugin_store.rs` lines 106-111). -/
structure ApiDownload where
  url : String
  sha256 : String
deriving DecidableEq, Repr

/-- `ApiCatalogItem` (`plugin_store.rs` lines 98-104). -/
structure ApiCatalogItem where
  plugin_id : String
  version : String
  download : Option ApiDownload
deriving DecidableEq, Repr

/-- Model of `install_from_server_catalog` (`plugin_store.rs` lines
626-825).  `catalog` is the parsed `/api/plugins/catalog` response. -/
def install_from_server_catalog (fs : FS) (server_id plugin_id : String)
    (expected_version : Option String) (catalog : List ApiCatalogItem)
    (bytes : List Nat) (archive : Except String (List ZipEntry)) :
    FS × Except String InstalledPluginState :=
  match catalog.find? (fun p => p.plugin_id = plugin_id) with
  | none => (fs, .error ("Plugin not found in catalog: " ++ plugin_id))
  | some target =>
    let want := match expected_version with | some vv => rustTrim vv | none => ""
    if want ≠ "" ∧ want ≠ rustTrim target.version then
      (fs, .error "Version mismatch")
    else
      match target.download with
      | none => (fs, .error ("Missing download info for " ++ plugin_id))
      | some dl =>
        if rustTrim dl.url = "" ∨ rustTrim dl.sha256 = "" then
          (fs, .error ("Invalid download info for " ++ plugin_id))
        else
          let got := sha256_hex bytes
          if ¬ eq_hash_hex got dl.sha256 then (fs, .error "SHA256 mismatch")
          else
            install_unpack_commit fs server_id plugin_id (rustTrim target.version)
              archive

/-! ## The database registry (`shared/db/mod.rs` lines 100-141).

The registry `HashMap<String, Arc<DbEntry>>` is an association list from
keys to database file paths (the pooled connection itself carries no
state the claims touch).  `CPDatabase::new` performs I/O; its outcome is
the `open_result` input. -/

def connect_named (reg : List (String × String)) (key path : String)
    (open_result : Except String Unit) :
    List (String × String) × Except String Unit :=
  match reg.find? (fun kv => kv.1 = key) with
  | some kv =>
    if kv.2 = path then (reg, .ok ())
    else (reg, .error "Database key already initialized with a different path")
  | none =>
    match open_result with
    | .error e => (reg, .error e)
    | .ok _ => ((key, path) :: reg, .ok ())

/-! ## Helper lemmas about the filesystem model -/

theorem fs_lookup_mkdir (fs : FS) (p q : List String) :
    fs_lookup (fs_mkdir fs p) q = fs_lookup fs q := rfl

theorem fs_lookup_write_self (fs : FS) (p : List String) (d : FileData) :
    fs_lookup (fs_write fs p d) p = some d := by
  simp [fs_lookup, fs_write, List.find?_cons]

theorem fs_lookup_write_ne (fs : FS) (p q : List String) (d : FileData)
    (h : q ≠ p) :
    fs_lookup (fs_write fs p d) q = fs_lookup fs q := by
  have hne : p ≠ q := fun e => h e.symm
  simp [fs_lookup, fs_write, List.find?_cons, hne]

/-! ## Claim theorems -/

/-- C9: for every key already bound in the database registry,
`connect_named(key, path)` succeeds and leaves the registry unchanged
when `path` equals the bound path (idempotent re-bind), and returns an
error leaving the registry unchanged when `path` differs; and
`connect_named` preserves the at-most-one-binding-per-key invariant of
the registry. -/
theorem connect_named_rebind_spec
    (reg : List (String × String)) (key path p : String) (r : Except String Unit) :
    (reg.find? (fun kv => kv.1 = key) = some (key, p) →
      (path = p → connect_named reg key path r = (reg, .ok ())) ∧
      (path ≠ p → connect_named reg key path r =
        (reg, .error "Database key already initialized with a different path"))) ∧
    ((reg.map Prod.fst).Nodup →
      ((connect_named reg key path r).1.map Prod.fst).Nodup) := by
  constructor
  · intro hfind
    constructor
    · intro hp
      simp [connect_named, hfind, hp]
    · intro hp
      have hne : ¬ (p = path) := fun e => hp e.symm
      simp [connect_named, hfind, hne]
  · intro hn
    rcases hfind : reg.find? (fun kv => kv.1 = key) with _ | kv
    · rcases r with e | u
      · simp [connect_named, hfind]
        exact hn
      · have hnotin : key ∉ reg.map Prod.fst := by
          intro hmem
          rcases List.mem_map.mp hmem with ⟨kv, hkv, hfst⟩
          have := List.find?_eq_none.mp hfind kv hkv
          simp [hfst] at this
        simp [connect_named, hfind, List.nodup_cons]
        refine ⟨fun x hx => hnotin ?_, hn⟩
        exact List.mem_map_of_mem Prod.fst hx
  -- the re-bind branches leave the registry unchanged
    · by_cases hp : kv.2 = path <;> simp [connect_named, hfind, hp] <;> exact hn

/-- C9 witness: a registry binding `"k"` to `"a"`; re-binding to `"a"` is
the identity and re-binding to `"b"` fails. -/
theorem connect_named_rebind_witness :
    connect_named [("k", "a")] "k" "a" (.ok ()) = ([("k", "a")], .ok ()) ∧
    connect_named [("k", "a")] "k" "b" (.ok ()) =
      ([("k", "a")], .error "Database key already initialized with a different path") :=
  ⟨((connect_named_rebind_spec [("k", "a")] "k" "a" "a" (.ok ())).1 (by rfl)).1 rfl,
   ((connect_named_rebind_spec [("k", "a")] "k" "b" "a" (.ok ())).1 (by rfl)).2 (by decide)⟩

theorem current_state_path_ne (root : List String) :
    root ++ ["current.json"] ≠ root ++ ["state.json"] := by
  intro h
  have := List.append_cancel_left h
  simp at this

/-- C10: for every installed plugin (a readable `current.json`),
`set_failed` rewrites `current.json` with `enabled = false`, writes
`state.json = {failed, trimmed message}`, and the returned
`InstalledPluginState` has `enabled = false` regardless of the prior
enabled flag. -/
theorem set_failed_forces_disabled
    (fs : FS) (sid pid msg : String) (root : List String) (cur : PluginCurrent)
    (hroot : plugin_root_dir sid pid = .ok root)
    (hcur : fs_lookup fs (root ++ ["current.json"]) = some (.cur cur)) :
    ∃ fs2 st, set_failed fs sid pid msg = (fs2, .ok st) ∧
      st.enabled = false ∧ st.status = "failed" ∧
      st.last_error = rustTrim msg ∧ st.current_version = some cur.version ∧
      fs_lookup fs2 (root ++ ["current.json"]) =
        some (.cur { cur with enabled := false }) ∧
      fs_lookup fs2 (root ++ ["state.json"]) =
        some (.state ⟨"failed", rustTrim msg⟩) := by
  have hcp : current_file_path sid pid = .ok (root ++ ["current.json"]) := by
    simp [current_file_path, hroot, Except.map]
  have hsp : state_file_path sid pid = .ok (root ++ ["state.json"]) := by
    simp [state_file_path, hroot, Except.map]
  have hrc : read_current fs sid pid = .ok (some cur) := by
    simp [read_current, hcp, hcur]
  -- the filesystem after the two writes
  set fs1 : FS :=
    fs_write (fs_mkdir fs (root ++ ["current.json"]).dropLast)
      (root ++ ["current.json"]) (.cur { cur with enabled := false }) with hfs1
  set fs2 : FS :=
    fs_write (fs_mkdir fs1 (root ++ ["state.json"]).dropLast)
      (root ++ ["state.json"]) (.state ⟨"failed", rustTrim msg⟩) with hfs2
  have hlc2 : fs_lookup fs2 (root ++ ["current.json"]) =
      some (.cur { cur with enabled := false }) := by
    rw [hfs2, fs_lookup_write_ne _ _ _ _ (current_state_path_ne root),
      fs_lookup_mkdir, hfs1, fs_lookup_write_self]
  have hls2 : fs_lookup fs2 (root ++ ["state.json"]) =
      some (.state ⟨"failed", rustTrim msg⟩) := by
    rw [hfs2, fs_lookup_write_self]
  have hrc2 : read_current fs2 sid pid = .ok (some { cur with enabled := false }) := by
    simp [read_current, hcp, hlc2]
  have hrs2 : read_state_file fs2 sid pid = .ok ⟨"failed", rustTrim msg⟩ := by
    simp [read_state_file, hsp, hls2]
  have hb : ∃ st, build_installed_state fs2 sid pid = .ok st ∧
      st.enabled = false ∧ st.status = "failed" ∧
      st.last_error = rustTrim msg ∧ st.current_version = some cur.version := by
    simp [build_installed_state, list_installed_versions, hroot, hrc2, hrs2]
  obtain ⟨st0, hb0, h1, h2, h3, h4⟩ := hb
  have hmain : set_failed fs sid pid msg = (fs2, .ok st0) := by
    simp only [set_failed, hrc, write_current, hcp, write_state_file, hsp,
      ← hfs1, ← hfs2, hb0]
  exact ⟨fs2, st0, hmain, h1, h2, h3, h4, hlc2, hls2⟩

/-- C10 witness: a concrete store whose plugin `"p1"` is currently
enabled; `set_failed` returns a state with `enabled = false` and writes
the failed state file. -/
theorem set_failed_forces_disabled_witness :
    ∃ fs2 st,
      set_failed
        ⟨[["data", "plugins", "srv", "p1", "1.0.0"]],
         [(["data", "plugins", "srv", "p1", "current.json"], .cur ⟨"1.0.0", true⟩)]⟩
        "srv" "p1" " boom " = (fs2, .ok st) ∧
      st.enabled = false ∧ st.status = "failed" ∧
      st.last_error = rustTrim " boom " ∧ st.current_version = some "1.0.0" ∧
      fs_lookup fs2 (["data", "plugins", "srv", "p1"] ++ ["current.json"]) =
        some (.cur ⟨"1.0.0", false⟩) ∧
      fs_lookup fs2 (["data", "plugins", "srv", "p1"] ++ ["state.json"]) =
        some (.state ⟨"failed", rustTrim " boom "⟩) :=
  set_failed_forces_disabled _ "srv" "p1" " boom "
    ["data", "plugins", "srv", "p1"] ⟨"1.0.0", true⟩ (by rfl) (by rfl)

/-- C8: if at enable time the entry file named by the current version's
manifest does not exist, `enable` fails with the message
`"Missing plugin entry: <entry>"`, writes
`state.json = {failed, that message}`, and leaves `current.json`
untouched (so `enabled` is not set to `true`); conversely `enable`
returns success only when the entry-exists check passed. -/
theorem enable_missing_entry_spec
    (fs : FS) (sid pid : String) (root vdir : List String)
    (cur : PluginCurrent) (m : PluginManifestV1)
    (hroot : plugin_root_dir sid pid = .ok root)
    (hcur : fs_lookup fs (root ++ ["current.json"]) = some (.cur cur))
    (hvdir : plugin_version_dir sid pid cur.version = .ok vdir)
    (hman : fs_lookup fs (vdir ++ ["plugin.json"]) = some (.manifest m)) :
    (entry_exists fs (joinRel vdir (rustTrim m.entry)) = false →
      ∃ fs1, enable fs sid pid =
          (fs1, .error ("Missing plugin entry: " ++ rustTrim m.entry)) ∧
        fs_lookup fs1 (root ++ ["state.json"]) =
          some (.state ⟨"failed", "Missing plugin entry: " ++ rustTrim m.entry⟩) ∧
        fs_lookup fs1 (root ++ ["current.json"]) = some (.cur cur)) ∧
    (∀ fs' st, enable fs sid pid = (fs', .ok st) →
      entry_exists fs (joinRel vdir (rustTrim m.entry)) = true) := by
  have hcp : current_file_path sid pid = .ok (root ++ ["current.json"]) := by
    simp [current_file_path, hroot, Except.map]
  have hsp : state_file_path sid pid = .ok (root ++ ["state.json"]) := by
    simp [state_file_path, hroot, Except.map]
  have hmp : manifest_file_path sid pid cur.version = .ok (vdir ++ ["plugin.json"]) := by
    simp [manifest_file_path, hvdir, Except.map]
  have hrc : read_current fs sid pid = .ok (some cur) := by
    simp [read_current, hcp, hcur]
  have hmain : entry_exists fs (joinRel vdir (rustTrim m.entry)) = false →
      enable fs sid pid =
        (fs_write (fs_mkdir fs (root ++ ["state.json"]).dropLast)
          (root ++ ["state.json"])
          (.state ⟨"failed", "Missing plugin entry: " ++ rustTrim m.entry⟩),
         .error ("Missing plugin entry: " ++ rustTrim m.entry)) := by
    intro hm
    simp only [enable, hrc, hmp, hman, hvdir, hm, write_state_file, hsp]
    simp
  constructor
  · intro hm
    refine ⟨_, hmain hm, ?_, ?_⟩
    · rw [fs_lookup_write_self]
    · rw [fs_lookup_write_ne _ _ _ _ (current_state_path_ne root),
        fs_lookup_mkdir, hcur]
  · intro fs' st h
    cases hb : entry_exists fs (joinRel vdir (rustTrim m.entry)) with
    | true => rfl
    | false =>
      rw [hmain hb] at h
      simp at h

/-- C8 witness: a plugin whose manifest names entry `"index.mjs"` but the
file is absent; `enable` fails with the expected message, records the
failed state, and leaves `current.json` untouched; on a second store
where the entry file exists, `enable` succeeds, witnessing the converse
direction's hypothesis satisfiability. -/
theorem enable_missing_entry_witness :
    (∃ fs1,
      enable
        ⟨[["data", "plugins", "srv", "p1", "1.0.0"]],
         [(["data", "plugins", "srv", "p1", "current.json"], .cur ⟨"1.0.0", false⟩),
          (["data", "plugins", "srv", "p1", "1.0.0", "plugin.json"],
           .manifest ⟨"p1", "P One", "1.0.0", "0.1.0", none, none, none,
             "index.mjs", [], []⟩)]⟩
        "srv" "p1" =
        (fs1, .error ("Missing plugin entry: " ++ rustTrim "index.mjs")) ∧
      fs_lookup fs1 (["data", "plugins", "srv", "p1"] ++ ["state.json"]) =
        some (.state ⟨"failed", "Missing plugin entry: " ++ rustTrim "index.mjs"⟩) ∧
      fs_lookup fs1 (["data", "plugins", "srv", "p1"] ++ ["current.json"]) =
        some (.cur ⟨"1.0.0", false⟩)) := by
  have h := enable_missing_entry_spec
    ⟨[["data", "plugins", "srv", "p1", "1.0.0"]],
     [(["data", "plugins", "srv", "p1", "current.json"], .cur ⟨"1.0.0", false⟩),
      (["data", "plugins", "srv", "p1", "1.0.0", "plugin.json"],
       .manifest ⟨"p1", "P One", "1.0.0", "0.1.0", none, none, none,
         "index.mjs", [], []⟩)]⟩
    "srv" "p1" ["data", "plugins", "srv", "p1"]
    ["data", "plugins", "srv", "p1", "1.0.0"]
    ⟨"1.0.0", false⟩
    ⟨"p1", "P One", "1.0.0", "0.1.0", none, none, none, "index.mjs", [], []⟩
    (by rfl) (by rfl) (by rfl) (by rfl)
  exact h.1 (by decide)

theorem unpack_loop_writes_safe (rp : Option String) (entries : List ZipEntry) :
    ∀ w ∈ (unpack_loop rp entries).1, is_zip_name_safe w.src = true := by
  induction entries with
  | nil =>
    intro w hw
    simp [unpack_loop] at hw
  | cons e rest ih =>
    intro w hw
    simp only [unpack_loop] at hw
    split_ifs at hw with h1 h2 h3 h4 h5 h6 <;>
      first
        | exact ih w hw
        | (simp at hw
           done)
        | (simp at hw
           rcases hw with rfl | hw0
           · simpa using h2
           · exact ih w hw0)

theorem unpack_loop_rejects (rp : Option String) (entries : List ZipEntry)
    (e : ZipEntry) (he : e ∈ entries)
    (hne : normalize_zip_name e.name ≠ "")
    (hbad : is_zip_name_safe (normalize_zip_name e.name) = false) :
    (unpack_loop rp entries).2 ≠ none := by
  induction entries with
  | nil => cases he
  | cons a rest ih =>
    rcases List.mem_cons.mp he with he0 | he0
    · subst he0
      simp only [unpack_loop]
      split_ifs with h1 h2 h3 h4 h5 h6 <;>
        first
          | exact absurd h1 hne
          | (rw [hbad] at h2
             cases h2)
          | simp
    · have ih2 := ih he0
      simp only [unpack_loop]
      split_ifs <;>
        first
          | exact ih2
          | simp

/-- C2 (amended): for every zip archive passed to the install unpack
step, an entry whose normalized name (after replacing `'\'` with `'/'`
and stripping leading `'/'`) is **non-empty** and unsafe — contains
`':'`, or has a segment that is empty, `'.'`, or `'..'` — makes the
unpack step stop with an error, and no write performed by the unpack
step stems from that entry (every performed write has a safe normalized
source name).  Entries whose normalized name is empty are skipped, not
rejected. -/
theorem unpack_rejects_unsafe_entries (entries : List ZipEntry) (e : ZipEntry)
    (he : e ∈ entries)
    (hne : normalize_zip_name e.name ≠ "")
    (hbad : is_zip_name_safe (normalize_zip_name e.name) = false) :
    (unpack_entries entries).2 ≠ none ∧
    ∀ w ∈ (unpack_entries entries).1, w.src ≠ normalize_zip_name e.name := by
  refine ⟨unpack_loop_rejects _ entries e he hne hbad, fun w hw hsrc => ?_⟩
  have hsafe := unpack_loop_writes_safe _ entries w hw
  rw [hsrc, hbad] at hsafe
  cases hsafe

/-- C2 witness: the archive containing only `"../evil.txt"` is rejected
before any write. -/
theorem unpack_rejects_unsafe_entries_witness :
    (unpack_entries [⟨"../evil.txt", false, .blob [1]⟩]).2 ≠ none ∧
    ∀ w ∈ (unpack_entries [⟨"../evil.txt", false, .blob [1]⟩]).1,
      w.src ≠ normalize_zip_name "../evil.txt" := by
  have h := unpack_rejects_unsafe_entries [⟨"../evil.txt", false, .blob [1]⟩]
    ⟨"../evil.txt", false, .blob [1]⟩ (by simp) (by decide) (by decide)
  exact h

/-- C2 counterexample to the claim as stated: a file entry named `"/"`
normalizes to the empty name, which the claim says must be rejected with
an error; the unpack step instead skips it and reports no error (and
writes nothing). -/
theorem unpack_empty_name_skipped_counterexample :
    normalize_zip_name "/" = "" ∧
    unpack_entries [⟨"/", false, .blob [1, 2, 3]⟩] = ([], none) := by
  decide

theorem mem_dropWhile_of_not (p : Char → Bool) (l : List Char) (c : Char)
    (hc : p c = false) (hm : c ∈ l) : c ∈ l.dropWhile p := by
  induction l with
  | nil => cases hm
  | cons a t ih =>
    by_cases ha : p a = true
    · rw [List.dropWhile_cons_of_pos ha]
      rcases List.mem_cons.mp hm with rfl | hmt
      · rw [ha] at hc
        cases hc
      · exact ih hmt
    · rw [List.dropWhile_cons_of_neg (by simpa using ha)]
      exact hm

theorem mem_trimChars_of_not_ws (l : List Char) (c : Char)
    (hc : c.isWhitespace = false) (hm : c ∈ l) : c ∈ trimChars l := by
  unfold trimChars
  rw [List.mem_reverse]
  apply mem_dropWhile_of_not _ _ _ hc
  rw [List.mem_reverse]
  exact mem_dropWhile_of_not _ _ _ hc hm

theorem char_contains_iff (l : List Char) (c : Char) :
    l.contains c = true ↔ c ∈ l := by
  simp [List.contains]

/-- Properties guaranteed for the original argument by a successful
`sanitize_segment`. -/
theorem sanitize_segment_ok (s s' : String) (h : sanitize_segment s = .ok s') :
    s' = rustTrim s ∧ s' ≠ "" ∧ s' ≠ "." ∧ s' ≠ ".." ∧
    s ≠ "" ∧ s ≠ "." ∧ s ≠ ".." ∧
    '/' ∉ s.data ∧ '\\' ∉ s.data ∧ ':' ∉ s.data := by
  simp only [sanitize_segment] at h
  split_ifs at h with h1 h2 h3
  injection h with h'
  subst h'
  push_neg at h2
  obtain ⟨hdot, hdd, hbs, hsl⟩ := h2
  refine ⟨rfl, h1, hdot, hdd, ?_, ?_, ?_, ?_, ?_, ?_⟩
  · intro hs0
    subst hs0
    exact h1 (by decide)
  · intro hs0
    subst hs0
    exact hdot (by decide)
  · intro hs0
    subst hs0
    exact hdd (by decide)
  · intro hmem
    exact hsl ((char_contains_iff _ _).mpr
      (mem_trimChars_of_not_ws s.data '/' (by decide) hmem))
  · intro hmem
    exact hbs ((char_contains_iff _ _).mpr
      (mem_trimChars_of_not_ws s.data '\\' (by decide) hmem))
  · intro hmem
    exact h3 ((char_contains_iff _ _).mpr
      (mem_trimChars_of_not_ws s.data ':' (by decide) hmem))

theorem splitChar_sep_not_mem (c : Char) (l : List Char) :
    ∀ seg ∈ splitChar c l, c ∉ seg := by
  induction l with
  | nil =>
    intro seg hseg
    simp [splitChar] at hseg
    subst hseg
    simp
  | cons a t ih =>
    intro seg hseg
    simp only [splitChar] at hseg
    by_cases ha : a = c
    · rw [if_pos ha] at hseg
      rcases List.mem_cons.mp hseg with rfl | h
      · simp
      · exact ih seg h
    · rw [if_neg ha] at hseg
      rcases hsp : splitChar c t with _ | ⟨s0, ss⟩
      · rw [hsp] at hseg
        simp at hseg
        subst hseg
        intro hc
        rcases List.mem_singleton.mp hc with rfl
        exact ha rfl
      · rw [hsp] at hseg
        rcases List.mem_cons.mp hseg with rfl | h
        · intro hc
          rcases List.mem_cons.mp hc with rfl | hc0
          · exact ha rfl
          · exact ih s0 (by rw [hsp]; exact List.mem_cons_self s0 ss) hc0
        · exact ih seg (by rw [hsp]; exact List.mem_cons_of_mem s0 h)

theorem splitChar_subset (c : Char) (l : List Char) :
    ∀ seg ∈ splitChar c l, ∀ x ∈ seg, x ∈ l := by
  induction l with
  | nil =>
    intro seg hseg x hx
    simp [splitChar] at hseg
    subst hseg
    cases hx
  | cons a t ih =>
    intro seg hseg x hx
    simp only [splitChar] at hseg
    by_cases ha : a = c
    · rw [if_pos ha] at hseg
      rcases List.mem_cons.mp hseg with rfl | h
      · cases hx
      · exact List.mem_cons_of_mem a (ih seg h x hx)
    · rw [if_neg ha] at hseg
      rcases hsp : splitChar c t with _ | ⟨s0, ss⟩
      · rw [hsp] at hseg
        simp at hseg
        subst hseg
        rcases List.mem_singleton.mp hx with rfl
        exact List.mem_cons_self x t
      · rw [hsp] at hseg
        rcases List.mem_cons.mp hseg with rfl | h
        · rcases List.mem_cons.mp hx with rfl | hx0
          · exact List.mem_cons_self x t
          · exact List.mem_cons_of_mem a
              (ih s0 (by rw [hsp]; exact List.mem_cons_self s0 ss) x hx0)
        · exact List.mem_cons_of_mem a
            (ih seg (by rw [hsp]; exact List.mem_cons_of_mem s0 h) x hx)

theorem safe_join3_ok (base : List String) (s p v : String) (root : List String)
    (h : safe_join base [s, p, v] = .ok root) :
    ∃ s' p' v', sanitize_segment s = .ok s' ∧ sanitize_segment p = .ok p' ∧
      sanitize_segment v = .ok v' ∧ root = base ++ [s', p', v'] := by
  simp only [safe_join] at h
  rcases hs : sanitize_segment s with e | s'
  · simp [hs] at h
  · simp only [hs] at h
    rcases hp : sanitize_segment p with e | p'
    · simp [hp] at h
    · simp only [hp] at h
      rcases hv : sanitize_segment v with e | v'
      · simp [hv] at h
      · simp only [hv] at h
        refine ⟨s', p', v', rfl, rfl, rfl, ?_⟩
        injection h with h'
        rw [← h']
        simp

/-- C4 (amended): every successful `resolve_app_plugins_path` call
returns `base ++ [trim s, trim p, trim v] ++ relsegs`: the result starts
with the plugins base directory, every non-base segment is non-empty and
not `"."`/`".."`, the three sanitized arguments contain no `'/'`, `'\'`
or `':'`, and every segment of the relative path (taken after trimming
whitespace and stripping leading `'/'`) is non-empty, not `"."`/`".."`,
and free of `'/'` and `'\'` — but rel segments are not checked for
`':'`. -/
theorem resolve_app_plugins_path_spec
    (base : List String) (s p v rel : String) (out : List String)
    (hok : resolve_app_plugins_path base s p v rel = .ok out) :
    (out = base ++ [rustTrim s, rustTrim p, rustTrim v] ++
        splitCharS '/' (dropLeadingSlashes (rustTrim rel))) ∧
    (∀ seg ∈ out, seg ∈ base ∨ (seg ≠ "" ∧ seg ≠ "." ∧ seg ≠ "..")) ∧
    (s ≠ "" ∧ s ≠ "." ∧ s ≠ ".." ∧ '/' ∉ s.data ∧ '\\' ∉ s.data ∧ ':' ∉ s.data) ∧
    (p ≠ "" ∧ p ≠ "." ∧ p ≠ ".." ∧ '/' ∉ p.data ∧ '\\' ∉ p.data ∧ ':' ∉ p.data) ∧
    (v ≠ "" ∧ v ≠ "." ∧ v ≠ ".." ∧ '/' ∉ v.data ∧ '\\' ∉ v.data ∧ ':' ∉ v.data) ∧
    (∀ seg ∈ splitCharS '/' (dropLeadingSlashes (rustTrim rel)),
      seg ≠ "" ∧ seg ≠ "." ∧ seg ≠ ".." ∧ '/' ∉ seg.data ∧ '\\' ∉ seg.data) := by
  simp only [resolve_app_plugins_path] at hok
  split_ifs at hok with h1 h2 h3
  rcases hsj : safe_join base [s, p, v] with e | root0
  · rw [hsj] at hok
    cases hok
  · rw [hsj] at hok
    injection hok with hout
    obtain ⟨s', p', v', hss, hpp, hvv, hroot⟩ := safe_join3_ok base s p v root0 hsj
    obtain ⟨hs1, hs2, hs3, hs4, hs5, hs6, hs7, hs8, hs9, hs10⟩ :=
      sanitize_segment_ok s s' hss
    obtain ⟨hp1, hp2, hp3, hp4, hp5, hp6, hp7, hp8, hp9, hp10⟩ :=
      sanitize_segment_ok p p' hpp
    obtain ⟨hv1, hv2, hv3, hv4, hv5, hv6, hv7, hv8, hv9, hv10⟩ :=
      sanitize_segment_ok v v' hvv
    subst hs1
    subst hp1
    subst hv1
    have hall : ∀ seg ∈ splitCharS '/' (dropLeadingSlashes (rustTrim rel)),
        ¬ (seg = "" ∨ seg = "." ∨ seg = "..") := by
      intro seg hseg
      have := List.all_eq_true.mp h3 seg hseg
      simpa using this
    have hrelsegs : ∀ seg ∈ splitCharS '/' (dropLeadingSlashes (rustTrim rel)),
        seg ≠ "" ∧ seg ≠ "." ∧ seg ≠ ".." ∧ '/' ∉ seg.data ∧ '\\' ∉ seg.data := by
      intro seg hseg
      have hne := hall seg hseg
      push_neg at hne
      obtain ⟨l, hl, hls⟩ := List.mem_map.mp hseg
      have hdata : seg.data = l := by
        rw [← hls]
      refine ⟨hne.1, hne.2.1, hne.2.2, ?_, ?_⟩
      · rw [hdata]
        exact splitChar_sep_not_mem '/' _ l hl
      · intro hmem
        rw [hdata] at hmem
        have : '\\' ∈ (dropLeadingSlashes (rustTrim rel)).data :=
          splitChar_subset '/' _ l hl '\\' hmem
        exact h2 ((char_contains_iff _ _).mpr this)
    have houteq : out = base ++ [rustTrim s, rustTrim p, rustTrim v] ++
        splitCharS '/' (dropLeadingSlashes (rustTrim rel)) := by
      rw [← hout, hroot]
    refine ⟨houteq, ?_, ⟨hs5, hs6, hs7, hs8, hs9, hs10⟩,
      ⟨hp5, hp6, hp7, hp8, hp9, hp10⟩, ⟨hv5, hv6, hv7, hv8, hv9, hv10⟩, hrelsegs⟩
    intro seg hseg
    rw [houteq] at hseg
    rcases List.mem_append.mp hseg with hseg | hseg
    · rcases List.mem_append.mp hseg with hseg | hseg
      · exact Or.inl hseg
      · refine Or.inr ?_
        simp only [List.mem_cons, List.mem_singleton, List.not_mem_nil,
          or_false] at hseg
        rcases hseg with rfl | rfl | rfl
        · exact ⟨hs2, hs3, hs4⟩
        · exact ⟨hp2, hp3, hp4⟩
        · exact ⟨hv2, hv3, hv4⟩
    · have := hrelsegs seg hseg
      exact Or.inr ⟨this.1, this.2.1, this.2.2.1⟩

/-- C4 witness: a successful resolution with a two-segment relative
path. -/
theorem resolve_app_plugins_path_spec_witness :
    (["data", "plugins", "srv", "plug", "1.0.0", "a", "b.js"] : List String) =
      ["data", "plugins"] ++ [rustTrim "srv", rustTrim "plug", rustTrim "1.0.0"] ++
        splitCharS '/' (dropLeadingSlashes (rustTrim "a/b.js")) ∧
    (∀ seg ∈ (["data", "plugins", "srv", "plug", "1.0.0", "a", "b.js"] : List String),
      seg ∈ (["data", "plugins"] : List String) ∨
        (seg ≠ "" ∧ seg ≠ "." ∧ seg ≠ "..")) ∧
    ("srv" ≠ "" ∧ "srv" ≠ "." ∧ "srv" ≠ ".." ∧ '/' ∉ "srv".data ∧
      '\\' ∉ "srv".data ∧ ':' ∉ "srv".data) ∧
    ("plug" ≠ "" ∧ "plug" ≠ "." ∧ "plug" ≠ ".." ∧ '/' ∉ "plug".data ∧
      '\\' ∉ "plug".data ∧ ':' ∉ "plug".data) ∧
    ("1.0.0" ≠ "" ∧ "1.0.0" ≠ "." ∧ "1.0.0" ≠ ".." ∧ '/' ∉ "1.0.0".data ∧
      '\\' ∉ "1.0.0".data ∧ ':' ∉ "1.0.0".data) ∧
    (∀ seg ∈ splitCharS '/' (dropLeadingSlashes (rustTrim "a/b.js")),
      seg ≠ "" ∧ seg ≠ "." ∧ seg ≠ ".." ∧ '/' ∉ seg.data ∧ '\\' ∉ seg.data) :=
  resolve_app_plugins_path_spec ["data", "plugins"] "srv" "plug" "1.0.0" "a/b.js"
    ["data", "plugins", "srv", "plug", "1.0.0", "a", "b.js"] (by rfl)

/-- C4 counterexample to the claim as stated: `resolve_app_plugins_path`
accepts a relative path whose segment contains `':'` (the claim asserts
every segment of a successful call is free of `':'`), and also accepts a
rel_path with a leading `'/'` whose literal `'/'`-split therefore has an
empty first segment. -/
theorem resolve_app_plugins_path_colon_counterexample :
    resolve_app_plugins_path ["data", "plugins"] "s" "p" "v" "a:b" =
      .ok ["data", "plugins", "s", "p", "v", "a:b"] ∧
    ':' ∈ "a:b".data ∧
    resolve_app_plugins_path ["data", "plugins"] "s" "p" "v" "/a" =
      .ok ["data", "plugins", "s", "p", "v", "a"] ∧
    "" ∈ splitCharS '/' "/a" :=
  ⟨by rfl, by decide, by rfl, by decide⟩

theorem stripPre_append (p s : List Char) : stripPre p (p ++ s) = some s := by
  induction p with
  | nil => rfl
  | cons a ps ih => simp [stripPre, ih]

theorem verify_tls_fingerprint_sha256_iff (peer : Option (List Nat))
    (expected : String) :
    verify_tls_fingerprint_sha256 peer expected = .ok () ↔
      ((normalize_fingerprintS expected).length = 64 ∧
       ∃ der, peer = some der ∧
         sha256_hex der = normalize_fingerprintS expected) := by
  constructor
  · intro h
    cases peer with
    | none =>
      simp only [verify_tls_fingerprint_sha256] at h
      split_ifs at h
    | some der =>
      simp only [verify_tls_fingerprint_sha256] at h
      split_ifs at h with hlen hhash
      exact ⟨not_not.mp hlen, der, rfl, not_not.mp hhash⟩
  · rintro ⟨h64, der, rfl, hsha⟩
    simp [verify_tls_fingerprint_sha256, h64, hsha]

/-- C3: under fingerprint-pinned TLS policy the decision logic accepts
exactly when the normalized caller-supplied fingerprint is 64 hex
characters and the peer presented a certificate whose DER sha256 hex
equals it — for both the session-socket checker
(`verify_tls_fingerprint_sha256`) and the https checker
(`verify_https_fingerprint`) — a missing peer certificate or an invalid
fingerprint length is always rejected; and the handshake used for
pinning accepts arbitrary certificates and hostnames: `tls-fp://`
session sockets parse to an insecure transport carrying a fingerprint,
the https pinning connector sets both danger-accept flags, and the
`"trust_fingerprint"` policy token builds a client with both
danger-accept flags. -/
theorem fingerprint_pinning_spec :
    (∀ (peer : Option (List Nat)) (expected : String),
      verify_tls_fingerprint_sha256 peer expected = .ok () ↔
        ((normalize_fingerprintS expected).length = 64 ∧
         ∃ der, peer = some der ∧
           sha256_hex der = normalize_fingerprintS expected)) ∧
    (∀ (peer : Option (List Nat)) (expected : String),
      verify_https_fingerprint peer expected = .ok () ↔
        ((normalize_fingerprintS expected).length = 64 ∧
         ∃ der, peer = some der ∧
           sha256_hex der = normalize_fingerprintS expected)) ∧
    (∀ rest : List Char, ∃ fp,
      (parse_transport ("tls-fp://".data ++ rest)).1 = Transport.tls true (some fp)) ∧
    tls_connector_accepts_invalid true = (true, true) ∧
    verify_https_connector_accepts_invalid = (true, true) ∧
    parse_tls_policy (some "trust_fingerprint") = TlsPolicy.trustFingerprint ∧
    build_reqwest_client_accepts_invalid TlsPolicy.trustFingerprint = (true, true) := by
  refine ⟨verify_tls_fingerprint_sha256_iff, ?_, ?_, rfl, rfl, by decide, rfl⟩
  · intro peer expected
    have heq : verify_https_fingerprint = verify_tls_fingerprint_sha256 := rfl
    rw [heq]
    exact verify_tls_fingerprint_sha256_iff peer expected
  · intro rest
    have hsp : stripPre ['t', 'l', 's', '-', 'f', 'p', ':', '/', '/']
        ('t' :: 'l' :: 's' :: '-' :: 'f' :: 'p' :: ':' :: '/' :: '/' :: rest) =
        some rest :=
      stripPre_append ['t', 'l', 's', '-', 'f', 'p', ':', '/', '/'] rest
    rcases hso : splitOnce '@' rest with _ | ⟨fp, addr⟩
    · exact ⟨[], by simp [parse_transport, hsp, hso]⟩
    · exact ⟨normalize_fingerprint fp, by simp [parse_transport, hsp, hso]⟩

theorem digitChar10_inj (a b : Nat) (ha : a < 10) (hb : b < 10)
    (h : digitChar10 a = digitChar10 b) : a = b := by
  interval_cases a <;> interval_cases b <;> (revert h; decide)

theorem natDigitsRev_ne_nil (n : Nat) : natDigitsRev n ≠ [] := by
  rw [natDigitsRev]
  split <;> simp

theorem natDigitsRev_lt (n : Nat) (h : n < 10) :
    natDigitsRev n = [digitChar10 n] := by
  rw [natDigitsRev]
  exact dif_pos h

theorem natDigitsRev_ge (n : Nat) (h : ¬ n < 10) :
    natDigitsRev n = digitChar10 (n % 10) :: natDigitsRev (n / 10) := by
  rw [natDigitsRev]
  exact dif_neg h

theorem natDigitsRev_inj (a : Nat) : ∀ b, natDigitsRev a = natDigitsRev b → a = b := by
  induction a using Nat.strong_induction_on with
  | _ a ih =>
    intro b h
    by_cases ha : a < 10 <;> by_cases hb : b < 10
    · rw [natDigitsRev_lt a ha, natDigitsRev_lt b hb] at h
      injection h with h1 _
      exact digitChar10_inj a b ha hb h1
    · rw [natDigitsRev_lt a ha, natDigitsRev_ge b hb] at h
      injection h with h1 h2
      exact absurd h2.symm (natDigitsRev_ne_nil _)
    · rw [natDigitsRev_ge a ha, natDigitsRev_lt b hb] at h
      injection h with h1 h2
      exact absurd h2 (natDigitsRev_ne_nil _)
    · rw [natDigitsRev_ge a ha, natDigitsRev_ge b hb] at h
      injection h with h1 h2
      have hm := digitChar10_inj (a % 10) (b % 10)
        (Nat.mod_lt _ (by omega)) (Nat.mod_lt _ (by omega)) h1
      have hd := ih (a / 10) (Nat.div_lt_self (by omega) (by omega)) (b / 10) h2
      omega

theorem natDecimal_inj (a b : Nat) (h : natDecimal a = natDecimal b) : a = b :=
  natDigitsRev_inj a b (List.reverse_inj.mp h)

theorem port_suffix_eq_iff (u1 u2 : ParsedUrl) :
    port_suffix u1 = port_suffix u2 ↔ u1.port = u2.port := by
  rcases h1 : u1.port with _ | pv <;> rcases h2 : u2.port with _ | qv
  · simp [port_suffix, h1, h2]
  · simp [port_suffix, h1, h2]
  · simp [port_suffix, h1, h2]
  · simp only [port_suffix, h1, h2]
    constructor
    · intro h
      injection h with _ h'
      exact congrArg some (natDecimal_inj pv qv h')
    · intro h
      injection h with h'
      rw [h']

theorem effective_port_eq_iff (s hostA hostB : String) (p q : Option Nat) :
    port_or_known_default (mkParsedUrl s hostA p) =
      port_or_known_default (mkParsedUrl s hostB q) ↔
    (mkParsedUrl s hostA p).port = (mkParsedUrl s hostB q).port := by
  rcases hk : known_default_port s with _ | d
  · simp only [mkParsedUrl, port_or_known_default, hk]
    rcases p with _ | pv <;> rcases q with _ | qv <;> simp
  · simp only [mkParsedUrl, port_or_known_default, hk]
    rcases p with _ | pv <;> rcases q with _ | qv
    · simp
    · by_cases hq : qv = d
      · simp [hq]
      · simp [hq]
        omega
    · by_cases hp : pv = d
      · simp [hp]
      · simp [hp]
    · by_cases hp : pv = d <;> by_cases hq : qv = d
      · simp [hp, hq]
      · simp [hp, hq]
        omega
      · simp [hp, hq]
      · simp [hp, hq]

/-- C5: the origin gate of `network_fetch` fails with
`"Network access denied: cross-origin"` exactly for target URLs whose
(scheme, host, port-or-known-default) differs from the server origin,
and lets every matching URL through — for URLs as normalized by the
`url` crate (`mkParsedUrl` drops a port equal to the scheme's known
default). -/
theorem network_fetch_cross_origin_spec
    (s1 host1 s2 host2 : String) (p1 p2 : Option Nat) :
    (network_fetch_origin_check (mkParsedUrl s1 host1 p1) (mkParsedUrl s2 host2 p2) =
        .error "Network access denied: cross-origin" ↔
      ¬ (s1 = s2 ∧ host1 = host2 ∧
         port_or_known_default (mkParsedUrl s1 host1 p1) =
           port_or_known_default (mkParsedUrl s2 host2 p2))) ∧
    (network_fetch_origin_check (mkParsedUrl s1 host1 p1) (mkParsedUrl s2 host2 p2) =
        .ok () ↔
      (s1 = s2 ∧ host1 = host2 ∧
       port_or_known_default (mkParsedUrl s1 host1 p1) =
         port_or_known_default (mkParsedUrl s2 host2 p2))) := by
  have hsame :
      ((mkParsedUrl s1 host1 p1).scheme = (mkParsedUrl s2 host2 p2).scheme ∧
       (mkParsedUrl s1 host1 p1).host = (mkParsedUrl s2 host2 p2).host ∧
       port_suffix (mkParsedUrl s1 host1 p1) =
         port_suffix (mkParsedUrl s2 host2 p2)) ↔
      (s1 = s2 ∧ host1 = host2 ∧
       port_or_known_default (mkParsedUrl s1 host1 p1) =
         port_or_known_default (mkParsedUrl s2 host2 p2)) := by
    by_cases hs : s1 = s2
    · subst hs
      constructor
      · rintro ⟨_, hh, hsuf⟩
        exact ⟨rfl, hh,
          (effective_port_eq_iff s1 host1 host2 p1 p2).mpr
            ((port_suffix_eq_iff _ _).mp hsuf)⟩
      · rintro ⟨_, hh, heff⟩
        exact ⟨rfl, hh,
          (port_suffix_eq_iff _ _).mpr
            ((effective_port_eq_iff s1 host1 host2 p1 p2).mp heff)⟩
    · constructor
      · rintro ⟨hsch, _, _⟩
        exact absurd hsch hs
      · rintro ⟨hsch, _, _⟩
        exact absurd hsch hs
  unfold network_fetch_origin_check
  dsimp only
  split_ifs with hc
  · exact ⟨iff_of_false (by simp) (not_not_intro (hsame.mp hc)),
      iff_of_true rfl (hsame.mp hc)⟩
  · exact ⟨iff_of_true rfl (fun hx => hc (hsame.mpr hx)),
      iff_of_false (by simp) (fun hx => hc (hsame.mpr hx))⟩

theorem be16_le (a b : Nat) : be16 a b ≤ 65535 := by
  unfold be16
  omega

theorem be16_not_over_limit (a b : Nat) : ¬ 10000000 < be16 a b := by
  have := be16_le a b
  omega

theorem drainFrames_cons_cons (a b : Nat) (rest : List Nat) :
    drainFrames (a :: b :: rest) =
      if be16 a b = 0 then drainFrames rest
      else if rest.length < be16 a b then (a :: b :: rest, [])
      else ((drainFrames (rest.drop (be16 a b))).1,
            rest.take (be16 a b) :: (drainFrames (rest.drop (be16 a b))).2) := by
  conv_lhs => rw [drainFrames]
  rw [if_neg (be16_not_over_limit a b)]

theorem drainFramesNoLimit_cons_cons (a b : Nat) (rest : List Nat) :
    drainFramesNoLimit (a :: b :: rest) =
      if be16 a b = 0 then drainFramesNoLimit rest
      else if rest.length < be16 a b then (a :: b :: rest, [])
      else ((drainFramesNoLimit (rest.drop (be16 a b))).1,
            rest.take (be16 a b) :: (drainFramesNoLimit (rest.drop (be16 a b))).2) := by
  conv_lhs => rw [drainFramesNoLimit]

theorem spec_record_payloads_cons (a b : Nat) (rest : List Nat) :
    spec_record_payloads (a :: b :: rest) =
      if rest.length < be16 a b then []
      else rest.take (be16 a b) :: spec_record_payloads (rest.drop (be16 a b)) := by
  conv_lhs => rw [spec_record_payloads]

theorem drainFrames_nil : drainFrames [] = ([], []) := by
  simp [drainFrames]

theorem drainFrames_single (a : Nat) : drainFrames [a] = ([a], []) := by
  simp [drainFrames]

theorem drainFramesNoLimit_nil : drainFramesNoLimit [] = ([], []) := by
  simp [drainFramesNoLimit]

theorem drainFramesNoLimit_single (a : Nat) : drainFramesNoLimit [a] = ([a], []) := by
  simp [drainFramesNoLimit]

theorem spec_record_payloads_nil : spec_record_payloads [] = [] := by
  simp [spec_record_payloads]

theorem spec_record_payloads_single (a : Nat) : spec_record_payloads [a] = [] := by
  simp [spec_record_payloads]

theorem drainFrames_eq_noLimit (acc : List Nat) :
    drainFrames acc = drainFramesNoLimit acc := by
  have key : ∀ n, ∀ acc : List Nat, acc.length ≤ n →
      drainFrames acc = drainFramesNoLimit acc := by
    intro n
    induction n with
    | zero =>
      intro acc hl
      match acc with
      | [] => rw [drainFrames_nil, drainFramesNoLimit_nil]
      | a :: t => simp at hl
    | succ n ih =>
      intro acc hl
      match acc with
      | [] => rw [drainFrames_nil, drainFramesNoLimit_nil]
      | [a] => rw [drainFrames_single, drainFramesNoLimit_single]
      | a :: b :: rest =>
        rw [drainFrames_cons_cons, drainFramesNoLimit_cons_cons]
        by_cases h0 : be16 a b = 0
        · rw [if_pos h0, if_pos h0]
          exact ih rest (by simp at hl; omega)
        · rw [if_neg h0, if_neg h0]
          by_cases hc : rest.length < be16 a b
          · rw [if_pos hc, if_pos hc]
          · rw [if_neg hc, if_neg hc]
            rw [ih (rest.drop (be16 a b)) (by simp [List.length_drop] at hl ⊢; omega)]
  exact key acc.length acc (Nat.le_refl _)

/-- C7 supporting theorem: the `len > 10_000_000` branch of the session
deframer is dead code — the deframer is extensionally equal to the same
loop with the branch removed, because a 2-byte big-endian length can
never exceed 65535, let alone 10,000,000. -/
theorem frame_length_limit_unreachable :
    (∀ acc : List Nat, drainFrames acc = drainFramesNoLimit acc) ∧
    (∀ a b : Nat, be16 a b ≤ 65535 ∧ be16 a b ≤ 10000000) :=
  ⟨drainFrames_eq_noLimit, fun a b => ⟨be16_le a b, by have := be16_le a b; omega⟩⟩

theorem drainFrames_residual_stable (s : List Nat) :
    drainFrames (drainFrames s).1 = ((drainFrames s).1, []) := by
  have key : ∀ n, ∀ s : List Nat, s.length ≤ n →
      drainFrames (drainFrames s).1 = ((drainFrames s).1, []) := by
    intro n
    induction n with
    | zero =>
      intro s hl
      match s with
      | [] => rw [drainFrames_nil, drainFrames_nil]
      | a :: t => simp at hl
    | succ n ih =>
      intro s hl
      match s with
      | [] => rw [drainFrames_nil, drainFrames_nil]
      | [a] => rw [drainFrames_single, drainFrames_single]
      | a :: b :: rest =>
        rw [drainFrames_cons_cons]
        by_cases h0 : be16 a b = 0
        · rw [if_pos h0]
          exact ih rest (by simp at hl; omega)
        · rw [if_neg h0]
          by_cases hc : rest.length < be16 a b
          · rw [if_pos hc]
            rw [drainFrames_cons_cons, if_neg h0, if_pos hc]
          · rw [if_neg hc]
            exact ih (rest.drop (be16 a b))
              (by simp [List.length_drop] at hl ⊢; omega)
  exact key s.length s (Nat.le_refl _)

theorem drainFrames_append (s t : List Nat) :
    drainFrames (s ++ t) =
      ((drainFrames ((drainFrames s).1 ++ t)).1,
       (drainFrames s).2 ++ (drainFrames ((drainFrames s).1 ++ t)).2) := by
  have key : ∀ n, ∀ s t : List Nat, s.length ≤ n →
      drainFrames (s ++ t) =
        ((drainFrames ((drainFrames s).1 ++ t)).1,
         (drainFrames s).2 ++ (drainFrames ((drainFrames s).1 ++ t)).2) := by
    intro n
    induction n with
    | zero =>
      intro s t hl
      match s with
      | [] => simp [drainFrames_nil]
      | a :: r => simp at hl
    | succ n ih =>
      intro s t hl
      match s with
      | [] => simp [drainFrames_nil]
      | [a] => simp [drainFrames_single]
      | a :: b :: rest =>
        by_cases h0 : be16 a b = 0
        · rw [show (a :: b :: rest) ++ t = a :: b :: (rest ++ t) from rfl,
            drainFrames_cons_cons a b (rest ++ t), drainFrames_cons_cons a b rest,
            if_pos h0, if_pos h0]
          exact ih rest t (by simp at hl; omega)
        · by_cases hc : rest.length < be16 a b
          · rw [drainFrames_cons_cons a b rest, if_neg h0, if_pos hc]
            simp
          · have hle : be16 a b ≤ rest.length := Nat.le_of_not_lt hc
            rw [show (a :: b :: rest) ++ t = a :: b :: (rest ++ t) from rfl,
              drainFrames_cons_cons a b (rest ++ t), drainFrames_cons_cons a b rest,
              if_neg h0, if_neg h0, if_neg hc,
              if_neg (show ¬ (rest ++ t).length < be16 a b by
                simp [List.length_append]; omega)]
            rw [List.drop_append_of_le_length hle, List.take_append_of_le_length hle]
            rw [ih (rest.drop (be16 a b)) t
              (by simp [List.length_drop] at hl ⊢; omega)]
            simp
  exact key s.length s t (Nat.le_refl _)

theorem readerRun_foldl_general (chunks : List (List Nat)) :
    ∀ (r : List Nat) (out : List (List Nat)), drainFrames r = (r, []) →
      chunks.foldl
        (fun st c =>
          let d := drainFrames (st.1 ++ c)
          (d.1, st.2 ++ d.2)) (r, out) =
        ((drainFrames (r ++ chunks.flatten)).1,
         out ++ (drainFrames (r ++ chunks.flatten)).2) := by
  induction chunks with
  | nil =>
    intro r out hr
    simp [hr]
  | cons c cs ih =>
    intro r out hr
    simp only [List.foldl_cons]
    rw [ih (drainFrames (r ++ c)).1 (out ++ (drainFrames (r ++ c)).2)
      (drainFrames_residual_stable (r ++ c))]
    have happ := drainFrames_append (r ++ c) cs.flatten
    simp only [List.flatten_cons, ← List.append_assoc, happ]

theorem readerRun_eq_drain (chunks : List (List Nat)) :
    readerRun chunks = drainFrames chunks.flatten := by
  unfold readerRun
  have h := readerRun_foldl_general chunks [] [] drainFrames_nil
  simpa using h

theorem drain_frames_flatten_eq_spec (s : List Nat) :
    ((drainFrames s).2).flatten = (spec_record_payloads s).flatten := by
  have key : ∀ n, ∀ s : List Nat, s.length ≤ n →
      ((drainFrames s).2).flatten = (spec_record_payloads s).flatten := by
    intro n
    induction n with
    | zero =>
      intro s hl
      match s with
      | [] => rw [drainFrames_nil, spec_record_payloads_nil]
      | a :: t => simp at hl
    | succ n ih =>
      intro s hl
      match s with
      | [] => rw [drainFrames_nil, spec_record_payloads_nil]
      | [a] => rw [drainFrames_single, spec_record_payloads_single]
      | a :: b :: rest =>
        rw [drainFrames_cons_cons, spec_record_payloads_cons]
        by_cases h0 : be16 a b = 0
        · rw [if_pos h0, h0]
          rw [if_neg (by omega)]
          simp only [List.drop_zero, List.take_zero, List.flatten_cons,
            List.nil_append]
          exact ih rest (by simp at hl; omega)
        · rw [if_neg h0]
          by_cases hc : rest.length < be16 a b
          · rw [if_pos hc, if_pos hc]
          · rw [if_neg hc, if_neg hc]
            simp only [List.flatten_cons]
            rw [ih (rest.drop (be16 a b))
              (by simp [List.length_drop] at hl ⊢; omega)]
  exact key s.length s (Nat.le_refl _)

/-- C6: for every sequence of chunks fed to a session's reader task, the
emitted framed payloads concatenated equal the concatenation of the
payloads of the complete 2-byte big-endian length-prefixed records of
the whole byte stream; a record of length 0 consumes its 2-byte header
and emits no framed event. -/
theorem framer_integrity (chunks : List (List Nat)) :
    ((readerRun chunks).2).flatten = (spec_record_payloads chunks.flatten).flatten ∧
    ∀ rest : List Nat, drainFrames (0 :: 0 :: rest) = drainFrames rest := by
  constructor
  · rw [readerRun_eq_drain]
    exact drain_frames_flatten_eq_spec chunks.flatten
  · intro rest
    rw [drainFrames_cons_cons, if_pos (by decide)]

/-- C1: on any install attempt — `install_from_url` or
`install_from_server_catalog` — where the sha256 of the downloaded bytes
differs from the expected digest (trimmed, case-insensitive hex
comparison), the operation returns an error and the filesystem is left
exactly as it was: no file or directory is created under the version
directory, and in particular `plugin.json` is never written. -/
theorem install_sha_mismatch_no_writes
    (fs : FS) (server_id plugin_id version download_url sha256_expected : String)
    (bytes : List Nat) (archive : Except String (List ZipEntry))
    (expected_version : Option String) (catalog : List ApiCatalogItem)
    (hurl : eq_hash_hex (sha256_hex bytes) (rustTrim sha256_expected) = false)
    (hcat : ∀ item dl,
      catalog.find? (fun p => p.plugin_id = plugin_id) = some item →
      item.download = some dl →
      eq_hash_hex (sha256_hex bytes) dl.sha256 = false) :
    ((install_from_url fs server_id plugin_id version download_url
        sha256_expected bytes archive).1 = fs ∧
     ∃ e, (install_from_url fs server_id plugin_id version download_url
        sha256_expected bytes archive).2 = .error e) ∧
    ((install_from_server_catalog fs server_id plugin_id expected_version
        catalog bytes archive).1 = fs ∧
     ∃ e, (install_from_server_catalog fs server_id plugin_id expected_version
        catalog bytes archive).2 = .error e) := by
  constructor
  · simp only [install_from_url]
    split_ifs with h1 h2 h3 h4 h5 <;>
      first
        | exact ⟨rfl, _, rfl⟩
        | exact ⟨trivial, _, rfl⟩
        | (rw [hurl] at h5
           cases h5)
  · rcases hfind : catalog.find? (fun p => p.plugin_id = plugin_id) with _ | target
    · simp only [install_from_server_catalog, hfind]
      first
        | exact ⟨rfl, _, rfl⟩
        | exact ⟨trivial, _, rfl⟩
    · rcases hdl : target.download with _ | dl
      · simp only [install_from_server_catalog, hfind, hdl]
        split_ifs <;>
          first
            | exact ⟨rfl, _, rfl⟩
            | exact ⟨trivial, _, rfl⟩
      · simp only [install_from_server_catalog, hfind, hdl]
        split_ifs with hv hinfo hsha <;>
          first
            | exact ⟨rfl, _, rfl⟩
            | exact ⟨trivial, _, rfl⟩
            | (rw [hcat target dl hfind hdl] at hsha
               cases hsha)

/-- C1 witness: a catalog entry and a direct URL install whose expected
digest `"zz"` cannot match the sha256 of the empty download; both
installers fail and leave the empty filesystem untouched. -/
theorem install_sha_mismatch_no_writes_witness :
    ((install_from_url ⟨[], []⟩ "srv" "p1" "1.0.0" "http://x/p.zip" "zz"
        [] (.ok [])).1 = ⟨[], []⟩ ∧
     ∃ e, (install_from_url ⟨[], []⟩ "srv" "p1" "1.0.0" "http://x/p.zip" "zz"
        [] (.ok [])).2 = .error e) ∧
    ((install_from_server_catalog ⟨[], []⟩ "srv" "p1" none
        [⟨"p1", "1.0.0", some ⟨"/pkg.zip", "zz"⟩⟩] [] (.ok [])).1 = ⟨[], []⟩ ∧
     ∃ e, (install_from_server_catalog ⟨[], []⟩ "srv" "p1" none
        [⟨"p1", "1.0.0", some ⟨"/pkg.zip", "zz"⟩⟩] [] (.ok [])).2 = .error e) := by
  refine install_sha_mismatch_no_writes ⟨[], []⟩ "srv" "p1" "1.0.0"
    "http://x/p.zip" "zz" [] (.ok []) none
    [⟨"p1", "1.0.0", some ⟨"/pkg.zip", "zz"⟩⟩] (by decide) ?_
  intro item dl hf hd
  have hitem : item = ⟨"p1", "1.0.0", some ⟨"/pkg.zip", "zz"⟩⟩ := by
    rw [show ([⟨"p1", "1.0.0", some ⟨"/pkg.zip", "zz"⟩⟩] :
        List ApiCatalogItem).find? (fun p => p.plugin_id = "p1") =
        some ⟨"p1", "1.0.0", some ⟨"/pkg.zip", "zz"⟩⟩ from rfl] at hf
    injection hf with hf'
    exact hf'.symm
  subst hitem
  simp only at hd
  injection hd with hd'
  subst hd'
  decide

/-- C3 witness: a pinned fingerprint equal to the sha256 of the
presented certificate is accepted; a missing peer certificate is
rejected. -/
theorem fingerprint_pinning_spec_witness :
    verify_tls_fingerprint_sha256 (some []) (sha256_hex []) = .ok () ∧
    verify_tls_fingerprint_sha256 none (sha256_hex []) ≠ .ok () := by
  constructor
  · exact (fingerprint_pinning_spec.1 (some []) (sha256_hex [])).mpr
      ⟨by decide, [], rfl, by decide⟩
  · intro h
    obtain ⟨_, d, hd, _⟩ := (fingerprint_pinning_spec.1 none (sha256_hex [])).mp h
    cases hd

/-- C5 witness: a cross-host URL is refused; a same-origin URL whose
explicit port is the scheme default passes the gate. -/
theorem network_fetch_cross_origin_spec_witness :
    network_fetch_origin_check (mkParsedUrl "https" "b.example" none)
      (mkParsedUrl "https" "a.example" (some 443)) =
      .error "Network access denied: cross-origin" ∧
    network_fetch_origin_check (mkParsedUrl "https" "a.example" (some 443))
      (mkParsedUrl "https" "a.example" none) = .ok () := by
  constructor
  · exact (network_fetch_cross_origin_spec "https" "b.example" "https"
      "a.example" none (some 443)).1.mpr (by decide)
  · exact (network_fetch_cross_origin_spec "https" "a.example" "https"
      "a.example" (some 443) none).2.mpr (by decide)

/-- C6 witness: the spec's framer scenario — chunks
`[00 03 41 42]` and `[43 00 00 00 02 58 59]` — satisfies the framer
integrity equation on the concatenated stream. -/
theorem framer_integrity_witness :
    ((readerRun [[0, 3, 65, 66], [67, 0, 0, 0, 2, 88, 89]]).2).flatten =
      (spec_record_payloads [0, 3, 65, 66, 67, 0, 0, 0, 2, 88, 89]).flatten :=
  (framer_integrity [[0, 3, 65, 66], [67, 0, 0, 0, 2, 88, 89]]).1
